import Mathlib

/-!
Verification of the numeric post-processing core of the Omnilytics dashboard:
the kinematic interpolation utilities (`src/utils/physics.ts`) and the
uncertainty propagation engine (`src/utils/uncertainty.ts`).

Modelling conventions:
* JavaScript numbers are modelled as exact rationals (`ℚ`); the claims under
  study are about clamping, ordering and algebraic structure, none of which
  hinge on floating-point rounding.
* `Array.prototype.sort` with comparator `(a, b) => a[0] - b[0]` is a stable
  sort by first component; it is modelled by `List.mergeSort` with the
  reflexive key order, which is stable and sorts by `≤` on keys.
* The `for (let t = 0; t <= duration; t += step)` loop visits the clock values
  `k * step` for `k = 0, 1, …` while `k * step ≤ duration`; for `step > 0` and
  `duration ≥ 0` that is `⌊duration / step⌋ + 1` iterations (`numSteps`).
  For `step ≤ 0` the source loop would not terminate; `numSteps` returns 0
  there, and every theorem that cares carries a `0 < step` hypothesis.
* The stateful interpolation cursor (`currentIdx` plus its `while` advance)
  is modelled by `advanceAux` (the `while` loop, with an explicit structural
  fuel that dominates the number of possible increments) threaded through
  `interpGo` (the `for` loop).
* Division in `ℚ` is total (`x / 0 = 0`) while in the host language `x / 0`
  is `±Infinity`/`NaN`; `emitSampleChecked`/`interpolateSeriesChecked` is a
  second embedding of the same source code in which a sample whose
  computation divides by zero is `none` (a `NaN` value in the host), and
  `ttcGoChecked`/`computeDistanceAndTTCChecked` extends this to the closing
  metrics with the host's `NaN` comparison semantics (every comparison with
  `NaN` is false, and `NaN` propagates through arithmetic). Theorems that
  quantify over inputs that can reach the division (duplicate timestamps)
  are stated on the checked embeddings; the unchecked model is used only
  where both semantics agree (under pairwise-distinct timestamps the two
  coincide, see `interpolateSeriesChecked_eq`).
-/

/-- A point of the dense output series of `interpolateSeries`
(`{ time, value }` in the source). -/
structure DenseSample where
  time : ℚ
  value : ℚ
deriving Repr, DecidableEq, Inhabited

/-- `Number(t.toFixed(1))`: round to one decimal place, ties away from zero
(the clock values fed to it are always ≥ 0, where this is `⌊10·q + 1/2⌋/10`). -/
def round1 (q : ℚ) : ℚ := (⌊q * 10 + 1/2⌋ : ℚ) / 10

/-- Number of iterations of `for (let t = 0; t <= duration; t += step)`. -/
def numSteps (duration step : ℚ) : Nat :=
  if 0 < step ∧ 0 ≤ duration then (⌊duration / step⌋).toNat + 1 else 0

/-- The cursor advance
`while (currentIdx < sorted.length - 1 && sorted[currentIdx + 1][0] < t) currentIdx++;`
with structural fuel. -/
def advanceAux (sorted : List (ℚ × ℚ)) (t : ℚ) : Nat → Nat → Nat
  | 0, idx => idx
  | fuel + 1, idx =>
    if idx + 1 < sorted.length ∧ (sorted.getD (idx + 1) (0, 0)).1 < t then
      advanceAux sorted t fuel (idx + 1)
    else
      idx

/-- The cursor advance; `sorted.length` fuel dominates the number of
increments the `while` loop can make (each one needs `idx + 1 < length`). -/
def advance (sorted : List (ℚ × ℚ)) (t : ℚ) (idx : Nat) : Nat :=
  advanceAux sorted t sorted.length idx

/-- The loop body of `interpolateSeries`: read `p1 = sorted[idx]`,
`p2 = sorted[idx + 1]` and emit one dense sample. -/
def emitSample (sorted : List (ℚ × ℚ)) (idx : Nat) (t : ℚ) : DenseSample :=
  match sorted[idx]?, sorted[idx + 1]? with
  | some p1, some p2 =>
      let range := p2.1 - p1.1
      let ratio := (t - p1.1) / range
      let value := p1.2 + (p2.2 - p1.2) * ratio
      ⟨round1 t, max 0 value⟩
  | some p1, none => ⟨round1 t, p1.2⟩
  | none, _ => ⟨round1 t, 0⟩

/-- The `for` loop of `interpolateSeries`: `n` remaining iterations, current
clock `t`, cursor `idx`. -/
def interpGo (sorted : List (ℚ × ℚ)) (step : ℚ) : Nat → ℚ → Nat → List DenseSample
  | 0, _, _ => []
  | n + 1, t, idx =>
    let idx' := advance sorted t idx
    emitSample sorted idx' t :: interpGo sorted step n (t + step) idx'

/-- `interpolateSeries` from `src/utils/physics.ts`. -/
def interpolateSeries (sparse : List (ℚ × ℚ)) (duration : ℚ) (step : ℚ := 0.1) :
    List DenseSample :=
  if sparse.length < 2 then []
  else
    let sorted := sparse.mergeSort fun a b => decide (a.1 ≤ b.1)
    interpGo sorted step (numSteps duration step) 0 0

/-- The loop body of `interpolateSeries` again, but with the interior division
checked: in the host language `(t - p1.time) / range` with `range = 0` is
`±Infinity`/`NaN` (an undefined sample value), modelled here as `none`. -/
def emitSampleChecked (sorted : List (ℚ × ℚ)) (idx : Nat) (t : ℚ) :
    Option DenseSample :=
  match sorted[idx]?, sorted[idx + 1]? with
  | some p1, some p2 =>
      let range := p2.1 - p1.1
      if range = 0 then none
      else
        let ratio := (t - p1.1) / range
        let value := p1.2 + (p2.2 - p1.2) * ratio
        some ⟨round1 t, max 0 value⟩
  | some p1, none => some ⟨round1 t, p1.2⟩
  | none, _ => some ⟨round1 t, 0⟩

/-- The `for` loop of `interpolateSeries`, division-checked variant. -/
def interpGoChecked (sorted : List (ℚ × ℚ)) (step : ℚ) :
    Nat → ℚ → Nat → List (Option DenseSample)
  | 0, _, _ => []
  | n + 1, t, idx =>
    let idx' := advance sorted t idx
    emitSampleChecked sorted idx' t :: interpGoChecked sorted step n (t + step) idx'

/-- `interpolateSeries`, division-checked variant: same control flow, but a
sample whose computation divides by zero is `none`. -/
def interpolateSeriesChecked (sparse : List (ℚ × ℚ)) (duration : ℚ)
    (step : ℚ := 0.1) : List (Option DenseSample) :=
  if sparse.length < 2 then []
  else
    let sorted := sparse.mergeSort fun a b => decide (a.1 ≤ b.1)
    interpGoChecked sorted step (numSteps duration step) 0 0

/-- `motionState` tag of a `TrackedObject` (`src/types.ts`). -/
inductive MotionState where
  | stationary
  | moving
  | erratic
deriving Repr, DecidableEq

/-- `TrackedObject` from `src/types.ts` (the fields the core reads;
`speedProfile` is optional in the source, read as `obj.speedProfile || []`). -/
structure TrackedObject where
  id : ℤ
  label : String
  firstSeen : ℚ
  lastSeen : ℚ
  maxSpeed : ℚ
  avgConfidence : ℚ
  motionState : MotionState
  direction : String
  speedProfile : Option (List (ℚ × ℚ))
deriving Repr

/-- `type` tag of a `TimelineEvent` (`src/types.ts`). -/
inductive EventType where
  | detection
  | occlusion
  | braking
  | impact
  | other
deriving Repr, DecidableEq

/-- Qualitative confidence tag of a `TimelineEvent` (`src/types.ts`). -/
inductive ConfidenceTag where
  | high
  | medium
  | low
deriving Repr, DecidableEq

/-- `TimelineEvent` from `src/types.ts`. -/
structure TimelineEvent where
  id : String
  label : String
  timestamp : ℚ
  type : EventType
  confidence : ConfidenceTag
  frame : ℤ
deriving Repr

/-- One row of the output of `computeDistanceAndTTC`
(`{ time, distance, ttc, risk }` in the source). -/
structure ClosingSample where
  time : ℚ
  distance : ℚ
  ttc : ℚ
  risk : Bool
deriving Repr, DecidableEq, Inhabited

/-- The loop of `computeDistanceAndTTC`: walk both dense series in lockstep
(`i < Math.min(dense1.length, dense2.length)`), threading the mutable
`distance` accumulator. -/
def ttcGo : List DenseSample → List DenseSample → ℚ → List ClosingSample
  | s1 :: r1, s2 :: r2, dist =>
      let closingSpeed := |s1.value - s2.value|
      let dec := dist - closingSpeed * 0.1
      let dist' := if dec < 0 then 0 else dec
      let ttc := if closingSpeed > 1 then dist' / closingSpeed else 10
      ⟨s1.time, dist', ttc, decide (ttc < 2.5 ∧ dist' < 20)⟩ :: ttcGo r1 r2 dist'
  | _, _, _ => []

/-- `computeDistanceAndTTC` from `src/utils/physics.ts`. (The source's
`isConverging` local is dead code — `… || true` — and is unused; the starting
distance is the fixed constant 50.) -/
def computeDistanceAndTTC (obj1 obj2 : TrackedObject) (duration : ℚ) :
    List ClosingSample :=
  ttcGo (interpolateSeries (obj1.speedProfile.getD []) duration)
    (interpolateSeries (obj2.speedProfile.getD []) duration) 50

/-- One row of `computeDistanceAndTTC`, division-checked variant: a field is
`none` when the host language would hold `NaN` there. (`time` is `none` when
the upstream dense sample was undefined; the host would still carry a numeric
time there, but no claim inspects it.) -/
structure ClosingSampleChecked where
  time : Option ℚ
  distance : Option ℚ
  ttc : Option ℚ
  risk : Bool
deriving Repr, DecidableEq, Inhabited

/-- `Math.abs(v1 - v2)` over possibly-`NaN` dense values: `NaN` propagates. -/
def nanClosingSpeed : Option DenseSample → Option DenseSample → Option ℚ
  | some a, some b => some |a.value - b.value|
  | _, _ => none

/-- `dist - c * 0.1` over possibly-`NaN` operands: `NaN` propagates. -/
def nanDec : Option ℚ → Option ℚ → Option ℚ
  | some d, some c => some (d - c * 0.1)
  | _, _ => none

/-- The clamp `if (distance < 0) distance = 0`: a `NaN` comparison is false
in the host, so the clamp misses a `NaN` distance. -/
def nanClamp : Option ℚ → Option ℚ
  | some x => if x < 0 then some 0 else some x
  | none => none

/-- `closingSpeed > 1 ? distance / closingSpeed : 10`: `NaN > 1` is false in
the host, so a `NaN` closing speed takes the sentinel branch; a `NaN`
distance divided by a real closing speed stays `NaN`. -/
def nanTtc (cs dist : Option ℚ) : Option ℚ :=
  match cs with
  | some c => if c > 1 then dist.map (fun d => d / c) else some 10
  | none => some 10

/-- A `<` comparison whose left operand may be `NaN`: false on `NaN`. -/
def nanLt : Option ℚ → ℚ → Bool
  | some x, y => decide (x < y)
  | none, _ => false

/-- The loop of `computeDistanceAndTTC` over division-checked dense samples,
with the host's `NaN` semantics (the helpers above). -/
def ttcGoChecked :
    List (Option DenseSample) → List (Option DenseSample) → Option ℚ →
      List ClosingSampleChecked
  | s1 :: r1, s2 :: r2, dist =>
      let closingSpeed := nanClosingSpeed s1 s2
      let dist' := nanClamp (nanDec dist closingSpeed)
      let ttc := nanTtc closingSpeed dist'
      let risk := nanLt ttc 2.5 && nanLt dist' 20
      ⟨s1.map DenseSample.time, dist', ttc, risk⟩ :: ttcGoChecked r1 r2 dist'
  | _, _, _ => []

/-- `computeDistanceAndTTC`, division-checked variant. -/
def computeDistanceAndTTCChecked (obj1 obj2 : TrackedObject) (duration : ℚ) :
    List ClosingSampleChecked :=
  ttcGoChecked (interpolateSeriesChecked (obj1.speedProfile.getD []) duration)
    (interpolateSeriesChecked (obj2.speedProfile.getD []) duration) (some 50)

/-- `UncertaintyNode` from `src/types.ts`. -/
structure UncertaintyNode where
  objectId : ℤ
  label : String
  posUncertainty : ℚ
  velUncertainty : ℚ
  accelUncertainty : ℚ
  persistenceRisk : ℚ
deriving Repr

/-- The per-object body of the `objects.map` in part 1 of
`computeUncertaintyMetrics` (`src/utils/uncertainty.ts`). -/
def uncertaintyNodeFor (obj : TrackedObject) : UncertaintyNode :=
  let baseUncertainty := 1 - obj.avgConfidence
  let velUncertainty :=
    min 1 (baseUncertainty * 1.2 + (if obj.maxSpeed > 80 then 0.2 else 0))
  let accelUncertainty := min 1 (velUncertainty * 1.5)
  let persistenceRisk :=
    min 1 (baseUncertainty + (if obj.motionState = MotionState.erratic then 0.3 else 0))
  ⟨obj.id, obj.label, baseUncertainty, velUncertainty, accelUncertainty,
    persistenceRisk⟩

/-- Part 1 of `computeUncertaintyMetrics`: node-level uncertainty. -/
def computeNodeUncertainty (objects : List TrackedObject) : List UncertaintyNode :=
  objects.map uncertaintyNodeFor

/-- `ConfidenceBudgetRow` from `src/types.ts`. -/
structure ConfidenceBudgetRow where
  stage : String
  inputConf : ℚ
  loss : ℚ
  outputConf : ℚ
deriving Repr, DecidableEq, Inhabited

/-- The average detection confidence used by stage 1 of the budget:
`objects.length > 0 ? objects.reduce((acc, o) => acc + o.avgConfidence, 0) / objects.length : 0`. -/
def avgDetectionConf (objects : List TrackedObject) : ℚ :=
  if objects.length > 0 then
    (objects.foldl (fun acc o => acc + o.avgConfidence) 0) / objects.length
  else 0

/-- Part 2 of `computeUncertaintyMetrics`: the four-stage confidence budget. -/
def computeConfidenceBudget (objects : List TrackedObject)
    (events : List TimelineEvent) : List ConfidenceBudgetRow :=
  let avgConf := avgDetectionConf objects
  let detectionInput : ℚ := 1.0
  let detectionLoss := (1 - avgConf) * 0.15
  let detectionOutput := detectionInput - detectionLoss
  let trackingLoss : ℚ := 0.05 +
    ((events.filter fun e => decide (e.type = EventType.occlusion)).length : ℚ) * 0.02
  let trackingOutput := detectionOutput - trackingLoss
  let motionLoss := trackingLoss * 1.5
  let motionOutput := trackingOutput - motionLoss
  let dynamicsLoss : ℚ := 0.05
  let dynamicsOutput := motionOutput - dynamicsLoss
  [⟨"Raw Detection", detectionInput, detectionLoss, detectionOutput⟩,
    ⟨"Multi-Object Tracking", detectionOutput, trackingLoss, trackingOutput⟩,
    ⟨"Motion Estimation", trackingOutput, motionLoss, motionOutput⟩,
    ⟨"Dynamics Modeling", motionOutput, dynamicsLoss, dynamicsOutput⟩]

/-- `type` tag of a `BlindSpot` (`src/types.ts`). -/
inductive BSType where
  | SPATIAL
  | TEMPORAL
  | ANALYTICAL
deriving Repr, DecidableEq, Inhabited

/-- `severity` tag of a `BlindSpot` (`src/types.ts`). -/
inductive BSSeverity where
  | LOW
  | MEDIUM
  | HIGH
deriving Repr, DecidableEq, Inhabited

/-- `BlindSpot` from `src/types.ts` (the optional `interval` field is never
set by the core and is omitted). -/
structure BlindSpot where
  type : BSType
  description : String
  severity : BSSeverity
deriving Repr, DecidableEq, Inhabited

/-- The unconditional SPATIAL finding pushed at the end of
`detectBlindSpots`. -/
def spatialBlindSpot : BlindSpot :=
  ⟨.SPATIAL, "Perimeter distortion: Lens geometry reduces accuracy at frame edges > 85%.",
    .LOW⟩

/-- Part 3 of `computeUncertaintyMetrics`: blind-spot detection. The source
pushes ANALYTICAL (conditional), then TEMPORAL (conditional), then SPATIAL
(always). -/
def detectBlindSpots (objects : List TrackedObject)
    (events : List TimelineEvent) : List BlindSpot :=
  let lowConfObjects := objects.filter fun o => decide (o.avgConfidence < 0.6)
  let sep : String := ", "
  let analytical : List BlindSpot :=
    if lowConfObjects.length > 0 then
      [⟨.ANALYTICAL,
        "High uncertainty for IDs: " ++
          String.intercalate sep (lowConfObjects.map fun o => toString o.id) ++
          " due to low detection score.", .HIGH⟩]
    else []
  let occlusionEvents := events.filter fun e => decide (e.type = EventType.occlusion)
  let temporal : List BlindSpot :=
    if occlusionEvents.length > 0 then
      [⟨.TEMPORAL,
        toString occlusionEvents.length ++
          " occlusion intervals detected where tracking relies on prediction.",
        .MEDIUM⟩]
    else []
  analytical ++ temporal ++ [spatialBlindSpot]

/-- `UncertaintyAnalysis` from `src/types.ts`. -/
structure UncertaintyAnalysis where
  nodes : List UncertaintyNode
  budget : List ConfidenceBudgetRow
  blindSpots : List BlindSpot
deriving Repr

/-- `computeUncertaintyMetrics` from `src/utils/uncertainty.ts`. -/
def computeUncertaintyMetrics (objects : List TrackedObject)
    (events : List TimelineEvent) : UncertaintyAnalysis :=
  ⟨computeNodeUncertainty objects, computeConfidenceBudget objects events,
    detectBlindSpots objects events⟩

/-- Rank of a blind-spot type in the emission order the spec requires
(ANALYTICAL before TEMPORAL before SPATIAL). -/
def bsRank : BSType → Nat
  | .ANALYTICAL => 0
  | .TEMPORAL => 1
  | .SPATIAL => 2

/-- A concrete tracked object used to instantiate hypotheses of the proved
theorems (end-to-end scenario B of the spec: confidence 0.9, maxSpeed 40,
moving). -/
def sampleObject : TrackedObject :=
  ⟨1, "Vehicle", 0, 10, 40, 0.9, .moving, "Approaching", none⟩

/-- A concrete object with `avgConfidence = 0.5` (blind-spot scenario). -/
def lowConfObject : TrackedObject :=
  ⟨2, "Pedestrian", 0, 10, 40, 0.5, .moving, "Approaching", none⟩

/-- A concrete occlusion event. -/
def occlusionEvent : TimelineEvent :=
  ⟨"e1", "Occlusion", 3, .occlusion, .medium, 90⟩


/-- Concrete objects with two-point speed profiles, used to instantiate
hypotheses of the proved theorems. -/
def ttcObjA : TrackedObject :=
  ⟨3, "Car A", 0, 1, 10, 0.9, .moving, "E", some [(0, 0), (1, 10)]⟩

/-- Second concrete object for the closing-metrics witness. -/
def ttcObjB : TrackedObject :=
  ⟨4, "Car B", 0, 1, 10, 0.9, .moving, "W", some [(0, 0), (1, 0)]⟩

/-- A concrete object whose speed profile has a duplicate timestamp, driving
the interior interpolation division to 0/0 (`NaN` in the host). -/
def nanObj : TrackedObject :=
  ⟨5, "Ghost", 0, 1, 10, 0.9, .moving, "N", some [(0, 0), (0, 5)]⟩

/-! ## Helper lemmas -/

theorem interpGo_length (sorted : List (ℚ × ℚ)) (step : ℚ) (n : Nat) (t : ℚ)
    (idx : Nat) : (interpGo sorted step n t idx).length = n := by
  induction n generalizing t idx with
  | zero => simp [interpGo]
  | succ n ih => simp [interpGo, ih]

theorem emitSample_value_nonneg (sorted : List (ℚ × ℚ)) (idx : Nat) (t : ℚ)
    (h : ∀ p ∈ sorted, 0 ≤ p.2) : 0 ≤ (emitSample sorted idx t).value := by
  rw [emitSample]
  cases h1 : sorted[idx]? with
  | none => simp
  | some p1 =>
    cases h2 : sorted[idx + 1]? with
    | none =>
      simpa using h p1 (List.getElem?_mem h1)
    | some p2 => simp [le_max_left]

theorem interpGo_value_nonneg (sorted : List (ℚ × ℚ)) (step : ℚ) (n : Nat)
    (t : ℚ) (idx : Nat) (h : ∀ p ∈ sorted, 0 ≤ p.2) :
    ∀ s ∈ interpGo sorted step n t idx, 0 ≤ s.value := by
  induction n generalizing t idx with
  | zero => simp [interpGo]
  | succ n ih =>
    intro s hs
    rw [interpGo] at hs
    rcases List.mem_cons.mp hs with h' | h'
    · exact h' ▸ emitSample_value_nonneg sorted _ t h
    · exact ih _ _ s h'

/-! ## C1 — non-negativity of `interpolate` outputs -/

/-- C1 (counterexample): the claim "every sample emitted by `interpolate` has
`value ≥ 0`, even when input sparse points contain negative values" is false:
for `interpolate([[0,-5],[1,-5]], 2, 1)` the flat-extrapolation branch
(clock past the last anchor) emits the last anchor's value unclamped, here
`-5 < 0`. -/
theorem interpolateSeries_negative_output_exists :
    ∃ s ∈ interpolateSeries [(0, -5), (1, -5)] 2 1, s.value < 0 := by
  have hs : List.mergeSort [((0:ℚ), (-5:ℚ)), (1, -5)] (fun a b => decide (a.1 ≤ b.1)) =
      [(0, -5), (1, -5)] := List.mergeSort_of_sorted (by simp)
  have hn : numSteps 2 1 = 3 := by
    rw [numSteps, if_pos (by norm_num)]
    norm_num
    rfl
  have hval : interpolateSeries [(0, -5), (1, -5)] 2 1 =
      [⟨0, 0⟩, ⟨1, 0⟩, ⟨2, -5⟩] := by
    rw [interpolateSeries, if_neg (by simp)]
    rw [hs, hn]
    norm_num [interpGo, advance, advanceAux, emitSample, round1, max_def]
  rw [hval]
  exact ⟨⟨2, -5⟩, by simp, by norm_num⟩

/-- Helper (total-division model): if every input sparse point has
non-negative value then every sample of the unchecked model has `value ≥ 0`
(the interpolating branch clamps with `Math.max(0, …)`; the
flat-extrapolation and no-anchor branches emit an input value or 0). The
claim-level statement lives on the division-checked embedding, see
`interpolateSeriesChecked_value_nonneg`. -/
theorem interpolateSeries_value_nonneg (sparse : List (ℚ × ℚ)) (duration step : ℚ)
    (h : ∀ p ∈ sparse, 0 ≤ p.2) :
    ∀ s ∈ interpolateSeries sparse duration step, 0 ≤ s.value := by
  intro s hs
  rw [interpolateSeries] at hs
  split at hs
  · simp at hs
  · refine interpGo_value_nonneg _ step _ 0 0 ?_ s hs
    intro p hp
    exact h p (List.mem_mergeSort.mp hp)

/-! ## C5 — end-to-end scenario A and the interpolation formula -/

/-- C5: `interpolate([[0,0],[10,20]], 10, 1)` returns exactly 11 samples and
the sample at `t = 5` is `⟨5, 10⟩` (midpoint); in general, whenever both a
current anchor `p1` and a next anchor `p2` exist, the emitted value is
`p1.value + (p2.value - p1.value) * ((t - p1.time) / (p2.time - p1.time))`
clamped to `≥ 0`. -/
theorem interpolateSeries_scenarioA :
    (interpolateSeries [(0, 0), (10, 20)] 10 1).length = 11 ∧
    (interpolateSeries [(0, 0), (10, 20)] 10 1).getD 5 default = ⟨5, 10⟩ ∧
    ∀ (sorted : List (ℚ × ℚ)) (idx : Nat) (t : ℚ) (p1 p2 : ℚ × ℚ),
      sorted[idx]? = some p1 → sorted[idx + 1]? = some p2 →
      emitSample sorted idx t =
        ⟨round1 t, max 0 (p1.2 + (p2.2 - p1.2) * ((t - p1.1) / (p2.1 - p1.1)))⟩ := by
  have hs : List.mergeSort [((0:ℚ), (0:ℚ)), (10, 20)] (fun a b => decide (a.1 ≤ b.1)) =
      [(0, 0), (10, 20)] := List.mergeSort_of_sorted (by simp)
  have hn : numSteps 10 1 = 11 := by
    rw [numSteps, if_pos (by norm_num)]
    norm_num
    rfl
  have hval : interpolateSeries [(0, 0), (10, 20)] 10 1 =
      [⟨0, 0⟩, ⟨1, 2⟩, ⟨2, 4⟩, ⟨3, 6⟩, ⟨4, 8⟩, ⟨5, 10⟩, ⟨6, 12⟩, ⟨7, 14⟩, ⟨8, 16⟩,
        ⟨9, 18⟩, ⟨10, 20⟩] := by
    rw [interpolateSeries, if_neg (by simp)]
    rw [hs, hn]
    norm_num [interpGo, advance, advanceAux, emitSample, round1, max_def]
  refine ⟨by rw [hval]; rfl, by rw [hval]; rfl, ?_⟩
  intro sorted idx t p1 p2 h1 h2
  rw [emitSample, h1, h2]

/-- C5 (witness): the general-formula component applied at a concrete sorted
list and clock, with the formula evaluated: the midpoint sample is 10. -/
theorem interpolateSeries_scenarioA_witness :
    emitSample [((0:ℚ), (0:ℚ)), (10, 20)] 0 5 = ⟨5, 10⟩ :=
  (interpolateSeries_scenarioA.2.2 [((0:ℚ), (0:ℚ)), (10, 20)] 0 5 (0, 0) (10, 20)
    rfl rfl).trans (by norm_num [round1, max_def])

/-! ## C6 — totality / well-definedness of every emitted sample -/

/-- C6 (counterexample): with two anchors sharing the timestamp 0 the
interior division `(t - p1.time) / (p2.time - p1.time)` divides by zero
(`NaN`/`±Infinity` in the host language), so the single emitted sample is not
a well-defined numeric value — refuting "points sharing equal timestamps …
always yields a well-defined sample value". -/
theorem interpolateSeriesChecked_div_by_zero :
    interpolateSeriesChecked [(0, 1), (0, 2)] 0 1 = [none] := by
  have hs : List.mergeSort [((0:ℚ), (1:ℚ)), (0, 2)] (fun a b => decide (a.1 ≤ b.1)) =
      [(0, 1), (0, 2)] := List.mergeSort_of_sorted (by simp)
  have hn : numSteps 0 1 = 1 := by
    rw [numSteps, if_pos (by norm_num)]
    norm_num
  rw [interpolateSeriesChecked, if_neg (by simp)]
  rw [hs, hn]
  norm_num [interpGoChecked, advance, advanceAux, emitSampleChecked]

theorem emitSampleChecked_isSome (sorted : List (ℚ × ℚ)) (idx : Nat) (t : ℚ)
    (h : sorted.Pairwise fun a b => a.1 ≠ b.1) :
    (emitSampleChecked sorted idx t).isSome := by
  rw [emitSampleChecked]
  cases h1 : sorted[idx]? with
  | none => simp
  | some p1 =>
    cases h2 : sorted[idx + 1]? with
    | none => simp
    | some p2 =>
      obtain ⟨hi1, he1⟩ := List.getElem?_eq_some.mp h1
      obtain ⟨hi2, he2⟩ := List.getElem?_eq_some.mp h2
      have hne : p1.1 ≠ p2.1 := by
        have := List.pairwise_iff_getElem.mp h idx (idx + 1) hi1 hi2 (by omega)
        rwa [he1, he2] at this
      have : p2.1 - p1.1 ≠ 0 := sub_ne_zero.mpr (Ne.symm hne)
      simp [this]

theorem interpGoChecked_isSome (sorted : List (ℚ × ℚ)) (step : ℚ) (n : Nat)
    (t : ℚ) (idx : Nat) (h : sorted.Pairwise fun a b => a.1 ≠ b.1) :
    ∀ s ∈ interpGoChecked sorted step n t idx, s.isSome := by
  induction n generalizing t idx with
  | zero => simp [interpGoChecked]
  | succ n ih =>
    intro s hs
    rw [interpGoChecked] at hs
    rcases List.mem_cons.mp hs with h' | h'
    · exact h' ▸ emitSampleChecked_isSome sorted _ t h
    · exact ih _ _ s h'

/-- C6 (amended): for positive step and sparse points with pairwise-distinct
timestamps, `interpolate` is total and every emitted sample is a well-defined
numeric value (no division by zero occurs); degenerate inputs (fewer than two
points) return the empty sequence, not an error. -/
theorem interpolateSeriesChecked_all_defined (sparse : List (ℚ × ℚ))
    (duration step : ℚ) (_hstep : 0 < step)
    (hd : sparse.Pairwise fun a b => a.1 ≠ b.1) :
    ∀ s ∈ interpolateSeriesChecked sparse duration step, s.isSome := by
  intro s hs
  rw [interpolateSeriesChecked] at hs
  split at hs
  · simp at hs
  · refine interpGoChecked_isSome _ step _ 0 0 ?_ s hs
    exact ((List.mergeSort_perm sparse _).pairwise_iff
      fun hab => Ne.symm hab).mpr hd

/-- C6 (witness): the amended theorem applied at `[[0, 2], [1, 3]]`,
duration 1, step 1. -/
theorem interpolateSeriesChecked_all_defined_witness :
    (0:ℚ) < 1 ∧ ∀ s ∈ interpolateSeriesChecked [((0:ℚ), (2:ℚ)), (1, 3)] 1 1,
      s.isSome :=
  ⟨by norm_num,
    interpolateSeriesChecked_all_defined _ 1 1 (by norm_num) (by norm_num)⟩

/-! ## C7 / C10 — closing distance and time-to-collision -/

theorem clamp_eq_max (x : ℚ) : (if x < 0 then (0:ℚ) else x) = max 0 x := by
  rcases lt_or_le x 0 with h | h
  · simp [h, max_eq_left h.le]
  · simp [not_lt.mpr h, max_eq_right h]

theorem ttcGo_length (l1 l2 : List DenseSample) (d : ℚ) :
    (ttcGo l1 l2 d).length = min l1.length l2.length := by
  induction l1 generalizing l2 d with
  | nil => simp [ttcGo]
  | cons s1 r1 ih =>
    cases l2 with
    | nil => simp [ttcGo]
    | cons s2 r2 =>
      simp only [ttcGo, List.length_cons, ih]
      omega

theorem interpolateSeries_length (sparse : List (ℚ × ℚ)) (duration step : ℚ)
    (h : ¬ sparse.length < 2) :
    (interpolateSeries sparse duration step).length = numSteps duration step := by
  rw [interpolateSeries, if_neg h, interpGo_length]

theorem ttcGo_spec (i : Nat) : ∀ (l1 l2 : List DenseSample) (d : ℚ),
    i < (ttcGo l1 l2 d).length →
    ((ttcGo l1 l2 d).getD i default).time = (l1.getD i default).time ∧
    ((ttcGo l1 l2 d).getD i default).distance =
      max 0 ((if i = 0 then d else ((ttcGo l1 l2 d).getD (i - 1) default).distance) -
        |(l1.getD i default).value - (l2.getD i default).value| * 0.1) ∧
    ((ttcGo l1 l2 d).getD i default).ttc =
      (if 1 < |(l1.getD i default).value - (l2.getD i default).value| then
        ((ttcGo l1 l2 d).getD i default).distance /
          |(l1.getD i default).value - (l2.getD i default).value|
      else 10) ∧
    (((ttcGo l1 l2 d).getD i default).risk = true ↔
      ((ttcGo l1 l2 d).getD i default).ttc < 2.5 ∧
        ((ttcGo l1 l2 d).getD i default).distance < 20) := by
  induction i with
  | zero =>
    intro l1 l2 d h
    cases l1 with
    | nil => simp [ttcGo] at h
    | cons s1 r1 =>
      cases l2 with
      | nil => simp [ttcGo] at h
      | cons s2 r2 =>
        simp only [ttcGo, List.getD_cons_zero, reduceIte]
        refine ⟨trivial, clamp_eq_max _, by simp only [gt_iff_lt],
          by simp only [decide_eq_true_eq]⟩
  | succ i ih =>
    intro l1 l2 d h
    cases l1 with
    | nil => simp [ttcGo] at h
    | cons s1 r1 =>
      cases l2 with
      | nil => simp [ttcGo] at h
      | cons s2 r2 =>
        have h' : i < (ttcGo r1 r2
            (if d - |s1.value - s2.value| * 0.1 < 0 then 0
             else d - |s1.value - s2.value| * 0.1)).length := by
          rw [ttcGo] at h
          simpa using h
        have IH := ih r1 r2 _ h'
        cases i with
        | zero => simpa [ttcGo] using IH
        | succ j => simpa [ttcGo] using IH

theorem ttcGo_dist_bounds : ∀ (l1 l2 : List DenseSample) (d : ℚ), 0 ≤ d →
    ∀ s ∈ ttcGo l1 l2 d, 0 ≤ s.distance ∧ s.distance ≤ d := by
  intro l1
  induction l1 with
  | nil =>
    intro l2 d hd s hs
    simp [ttcGo] at hs
  | cons s1 r1 ih =>
    intro l2 d hd s hs
    cases l2 with
    | nil => simp [ttcGo] at hs
    | cons s2 r2 =>
      have habs : (0:ℚ) ≤ |s1.value - s2.value| := abs_nonneg _
      have hmul : (0:ℚ) ≤ |s1.value - s2.value| * 0.1 :=
        mul_nonneg habs (by norm_num)
      rw [ttcGo] at hs
      rcases List.mem_cons.mp hs with h' | h'
      · subst h'
        constructor <;> (simp only; split <;> linarith)
      · have hd' : (0:ℚ) ≤ if d - |s1.value - s2.value| * 0.1 < 0 then 0
            else d - |s1.value - s2.value| * 0.1 := by
          split <;> linarith
        have hb := ih r2 _ hd' s h'
        refine ⟨hb.1, hb.2.trans ?_⟩
        split <;> linarith

theorem ttcGo_dist_antitone : ∀ (l1 l2 : List DenseSample) (d : ℚ), 0 ≤ d →
    (ttcGo l1 l2 d).Pairwise fun a b => b.distance ≤ a.distance := by
  intro l1
  induction l1 with
  | nil =>
    intro l2 d hd
    simp [ttcGo]
  | cons s1 r1 ih =>
    intro l2 d hd
    cases l2 with
    | nil => simp [ttcGo]
    | cons s2 r2 =>
      have habs : (0:ℚ) ≤ |s1.value - s2.value| := abs_nonneg _
      have hd' : (0:ℚ) ≤ if d - |s1.value - s2.value| * 0.1 < 0 then 0
          else d - |s1.value - s2.value| * 0.1 := by
        have : (0:ℚ) ≤ |s1.value - s2.value| * 0.1 := mul_nonneg habs (by norm_num)
        split <;> linarith
      rw [ttcGo, List.pairwise_cons]
      refine ⟨fun s hs => ?_, ih r2 _ hd'⟩
      simpa using (ttcGo_dist_bounds r1 r2 _ hd' s hs).2

/-- C7: for every pair of tracked objects and every duration, the output of
`computeDistanceAndTTC` is truncated to the minimum of the two dense series'
lengths, and at each index: `closingSpeed` is the absolute difference of the
two interpolated speeds, `distance` is the previous distance (50 at index 0)
decremented by `closingSpeed * 0.1` and clamped at 0, `ttc` is
`distance / closingSpeed` when `closingSpeed > 1` and the sentinel 10
otherwise, and `risk` holds iff `ttc < 2.5` and `distance < 20`. -/
theorem computeDistanceAndTTC_spec (obj1 obj2 : TrackedObject) (duration : ℚ)
    (d1 d2 : List DenseSample) (r : List ClosingSample)
    (hd1 : d1 = interpolateSeries (obj1.speedProfile.getD []) duration)
    (hd2 : d2 = interpolateSeries (obj2.speedProfile.getD []) duration)
    (hr : r = computeDistanceAndTTC obj1 obj2 duration) :
    r.length = min d1.length d2.length ∧
    ∀ i, i < r.length →
      (r.getD i default).time = (d1.getD i default).time ∧
      (r.getD i default).distance =
        max 0 ((if i = 0 then (50:ℚ) else (r.getD (i - 1) default).distance) -
          |(d1.getD i default).value - (d2.getD i default).value| * 0.1) ∧
      (r.getD i default).ttc =
        (if 1 < |(d1.getD i default).value - (d2.getD i default).value| then
          (r.getD i default).distance /
            |(d1.getD i default).value - (d2.getD i default).value|
        else 10) ∧
      ((r.getD i default).risk = true ↔
        (r.getD i default).ttc < 2.5 ∧ (r.getD i default).distance < 20) := by
  subst hd1 hd2 hr
  exact ⟨ttcGo_length _ _ _, fun i h => ttcGo_spec i _ _ 50 h⟩

/-- C7 (witness): the characterization applied to the concrete object pair at
duration 0: one aligned sample, whose distance is still the full 50 (equal
speeds, no closing motion). -/
theorem computeDistanceAndTTC_spec_witness :
    (computeDistanceAndTTC ttcObjA ttcObjB 0).length = 1 ∧
    ((computeDistanceAndTTC ttcObjA ttcObjB 0).getD 0 default).distance = 50 := by
  have hspec := computeDistanceAndTTC_spec ttcObjA ttcObjB 0 _ _ _ rfl rfl rfl
  have hA : interpolateSeries (ttcObjA.speedProfile.getD []) 0 = [⟨0, 0⟩] := by
    have hs : List.mergeSort [((0:ℚ), (0:ℚ)), (1, 10)] (fun a b => decide (a.1 ≤ b.1)) =
        [(0, 0), (1, 10)] := List.mergeSort_of_sorted (by simp)
    have hn : numSteps 0 0.1 = 1 := by
      rw [numSteps, if_pos (by norm_num)]
      norm_num
    show interpolateSeries [(0, 0), (1, 10)] 0 0.1 = [⟨0, 0⟩]
    rw [interpolateSeries, if_neg (by simp), hs, hn]
    norm_num [interpGo, advance, advanceAux, emitSample, round1, max_def]
  have hB : interpolateSeries (ttcObjB.speedProfile.getD []) 0 = [⟨0, 0⟩] := by
    have hs : List.mergeSort [((0:ℚ), (0:ℚ)), (1, 0)] (fun a b => decide (a.1 ≤ b.1)) =
        [(0, 0), (1, 0)] := List.mergeSort_of_sorted (by simp)
    have hn : numSteps 0 0.1 = 1 := by
      rw [numSteps, if_pos (by norm_num)]
      norm_num
    show interpolateSeries [(0, 0), (1, 0)] 0 0.1 = [⟨0, 0⟩]
    rw [interpolateSeries, if_neg (by simp), hs, hn]
    norm_num [interpGo, advance, advanceAux, emitSample, round1, max_def]
  have hlen : (computeDistanceAndTTC ttcObjA ttcObjB 0).length = 1 := by
    rw [hspec.1, hA, hB]
    rfl
  refine ⟨hlen, ?_⟩
  have h0 := (hspec.2 0 (by rw [hlen]; norm_num)).2.1
  rw [h0, hA, hB]
  norm_num

/-! ## C2 / C8 — node-level uncertainty -/

/-- C2: for objects whose detection confidence lies in the data-model range
[0, 1], all four fields of every `UncertaintyNode` produced by
`computeNodeUncertainty` lie in the closed interval [0, 1]. -/
theorem computeNodeUncertainty_clamped (objects : List TrackedObject)
    (h : ∀ o ∈ objects, 0 ≤ o.avgConfidence ∧ o.avgConfidence ≤ 1) :
    ∀ n ∈ computeNodeUncertainty objects,
      (0 ≤ n.posUncertainty ∧ n.posUncertainty ≤ 1) ∧
      (0 ≤ n.velUncertainty ∧ n.velUncertainty ≤ 1) ∧
      (0 ≤ n.accelUncertainty ∧ n.accelUncertainty ≤ 1) ∧
      (0 ≤ n.persistenceRisk ∧ n.persistenceRisk ≤ 1) := by
  intro n hn
  rw [computeNodeUncertainty] at hn
  obtain ⟨o, ho, rfl⟩ := List.mem_map.mp hn
  obtain ⟨h0, h1⟩ := h o ho
  dsimp only [uncertaintyNodeFor]
  have hpen1 : (0:ℚ) ≤ if o.maxSpeed > 80 then (0.2:ℚ) else 0 := by
    split <;> norm_num
  have hpen2 : (0:ℚ) ≤ if o.motionState = MotionState.erratic then (0.3:ℚ) else 0 := by
    split <;> norm_num
  have hbase : (0:ℚ) ≤ (1 - o.avgConfidence) * 1.2 :=
    mul_nonneg (by linarith) (by norm_num)
  have hvel0 : (0:ℚ) ≤
      min 1 ((1 - o.avgConfidence) * 1.2 + if o.maxSpeed > 80 then (0.2:ℚ) else 0) :=
    le_min (by norm_num) (by linarith)
  refine ⟨⟨by linarith, by linarith⟩, ⟨hvel0, min_le_left _ _⟩,
    ⟨le_min (by norm_num) (mul_nonneg hvel0 (by norm_num)), min_le_left _ _⟩,
    ⟨le_min (by norm_num) (by linarith), min_le_left _ _⟩⟩

/-- C2 (witness): the clamping theorem applied at the one-object list
`[sampleObject]` (confidence 0.9). -/
theorem computeNodeUncertainty_clamped_witness :
    (∀ o ∈ [sampleObject], 0 ≤ o.avgConfidence ∧ o.avgConfidence ≤ 1) ∧
    ∀ n ∈ computeNodeUncertainty [sampleObject],
      (0 ≤ n.posUncertainty ∧ n.posUncertainty ≤ 1) ∧
      (0 ≤ n.velUncertainty ∧ n.velUncertainty ≤ 1) ∧
      (0 ≤ n.accelUncertainty ∧ n.accelUncertainty ≤ 1) ∧
      (0 ≤ n.persistenceRisk ∧ n.persistenceRisk ≤ 1) :=
  ⟨by
    intro o ho
    rw [List.mem_singleton] at ho
    subst ho
    constructor <;> norm_num [sampleObject],
  computeNodeUncertainty_clamped [sampleObject] (by
    intro o ho
    rw [List.mem_singleton] at ho
    subst ho
    constructor <;> norm_num [sampleObject])⟩

/-- C8: for every input object with detection confidence in the data-model
range, the produced node satisfies `accelUncertainty ≥ velUncertainty`
(acceleration uncertainty is velocity uncertainty amplified by 1.5, clamped
at 1, and velocity uncertainty never exceeds 1). -/
theorem accelUncertainty_ge_velUncertainty (objects : List TrackedObject)
    (h : ∀ o ∈ objects, o.avgConfidence ≤ 1) :
    ∀ n ∈ computeNodeUncertainty objects,
      n.velUncertainty ≤ n.accelUncertainty := by
  intro n hn
  rw [computeNodeUncertainty] at hn
  obtain ⟨o, ho, rfl⟩ := List.mem_map.mp hn
  dsimp only [uncertaintyNodeFor]
  have hpen1 : (0:ℚ) ≤ if o.maxSpeed > 80 then (0.2:ℚ) else 0 := by
    split <;> norm_num
  have hbase : (0:ℚ) ≤ (1 - o.avgConfidence) * 1.2 :=
    mul_nonneg (by linarith [h o ho]) (by norm_num)
  have hvel0 : (0:ℚ) ≤
      min 1 ((1 - o.avgConfidence) * 1.2 + if o.maxSpeed > 80 then (0.2:ℚ) else 0) :=
    le_min (by norm_num) (by linarith)
  refine le_min (min_le_left _ _) ?_
  have := min_le_left (1:ℚ)
    ((1 - o.avgConfidence) * 1.2 + if o.maxSpeed > 80 then (0.2:ℚ) else 0)
  linarith

/-- C8 (witness): the amplification inequality applied at `[sampleObject]`. -/
theorem accelUncertainty_ge_velUncertainty_witness :
    (∀ o ∈ [sampleObject], o.avgConfidence ≤ 1) ∧
    ∀ n ∈ computeNodeUncertainty [sampleObject],
      n.velUncertainty ≤ n.accelUncertainty :=
  ⟨by
    intro o ho
    rw [List.mem_singleton] at ho
    subst ho
    norm_num [sampleObject],
  accelUncertainty_ge_velUncertainty [sampleObject] (by
    intro o ho
    rw [List.mem_singleton] at ho
    subst ho
    norm_num [sampleObject])⟩

/-! ## C3 / C4 — confidence budget -/

theorem foldl_conf_nonneg : ∀ (l : List TrackedObject) (c : ℚ), 0 ≤ c →
    (∀ o ∈ l, 0 ≤ o.avgConfidence) →
    0 ≤ l.foldl (fun acc o => acc + o.avgConfidence) c := by
  intro l
  induction l with
  | nil => intro c hc _; simpa using hc
  | cons o l ih =>
    intro c hc h
    rw [List.foldl_cons]
    exact ih _ (by linarith [h o (List.mem_cons_self o l)]) fun o' ho' =>
      h o' (List.mem_cons_of_mem _ ho')

theorem foldl_conf_le_length : ∀ (l : List TrackedObject) (c : ℚ),
    (∀ o ∈ l, o.avgConfidence ≤ 1) →
    l.foldl (fun acc o => acc + o.avgConfidence) c ≤ c + l.length := by
  intro l
  induction l with
  | nil => intro c _; simp
  | cons o l ih =>
    intro c h
    rw [List.foldl_cons]
    have := ih (c + o.avgConfidence) fun o' ho' => h o' (List.mem_cons_of_mem _ ho')
    have ho := h o (List.mem_cons_self o l)
    push_cast [List.length_cons]
    push_cast at this
    linarith

theorem avgDetectionConf_mem_Icc (objects : List TrackedObject)
    (h : ∀ o ∈ objects, 0 ≤ o.avgConfidence ∧ o.avgConfidence ≤ 1) :
    0 ≤ avgDetectionConf objects ∧ avgDetectionConf objects ≤ 1 := by
  rw [avgDetectionConf]
  split
  · rename_i hlen
    have hpos : (0:ℚ) < objects.length := by exact_mod_cast hlen
    constructor
    · exact div_nonneg (foldl_conf_nonneg objects 0 le_rfl fun o ho => (h o ho).1)
        hpos.le
    · rw [div_le_one hpos]
      have := foldl_conf_le_length objects 0 fun o ho => (h o ho).2
      linarith
  · norm_num

/-- C3 (counterexample): with no objects and 41 occlusion events the
Multi-Object Tracking loss is `0.05 + 41·0.02 = 0.87` while its input is
`1 - 0.15 = 0.85`, so its output confidence is `-0.02 < 0` — refuting "no
confidence value goes below 0" (the source never clamps the chain). -/
theorem computeConfidenceBudget_negative_outputConf :
    ((computeConfidenceBudget [] (List.replicate 41 occlusionEvent)).getD 1
      default).outputConf < 0 := by
  have hfilter : (List.replicate 41 occlusionEvent).filter
      (fun e => decide (e.type = EventType.occlusion)) =
      List.replicate 41 occlusionEvent :=
    List.filter_eq_self.mpr fun a ha => by
      rw [List.eq_of_mem_replicate ha]
      rfl
  rw [computeConfidenceBudget]
  rw [hfilter]
  norm_num [avgDetectionConf]

/-- C3 (amended): with detection confidences in the data-model range [0, 1],
the confidences along the four-row chain are monotonically non-increasing
(each row's output is at most its input, and successive outputs never
increase); the "never below 0" half of the claim is dropped — the chain can
go negative, as the counterexample shows. -/
theorem computeConfidenceBudget_nonincreasing (objects : List TrackedObject)
    (events : List TimelineEvent)
    (h : ∀ o ∈ objects, 0 ≤ o.avgConfidence ∧ o.avgConfidence ≤ 1) :
    (∀ row ∈ computeConfidenceBudget objects events,
      row.outputConf ≤ row.inputConf) ∧
    (computeConfidenceBudget objects events).Chain'
      (fun r s => s.outputConf ≤ r.outputConf) := by
  obtain ⟨h0, h1⟩ := avgDetectionConf_mem_Icc objects h
  have hk : (0:ℚ) ≤
      ((events.filter fun e => decide (e.type = EventType.occlusion)).length : ℚ) :=
    Nat.cast_nonneg _
  rw [computeConfidenceBudget]
  constructor
  · intro row hrow
    simp only [List.mem_cons, List.mem_singleton, List.not_mem_nil, or_false] at hrow
    rcases hrow with rfl | rfl | rfl | rfl <;> dsimp only <;> nlinarith
  · simp only [List.chain'_cons, List.chain'_singleton, and_true]
    refine ⟨?_, ?_, ?_⟩ <;> dsimp only <;> nlinarith

/-- C3 (witness): the amended monotonicity applied at one object of
confidence 0.9 and one occlusion event. -/
theorem computeConfidenceBudget_nonincreasing_witness :
    (∀ o ∈ [sampleObject], 0 ≤ o.avgConfidence ∧ o.avgConfidence ≤ 1) ∧
    ((∀ row ∈ computeConfidenceBudget [sampleObject] [occlusionEvent],
        row.outputConf ≤ row.inputConf) ∧
      (computeConfidenceBudget [sampleObject] [occlusionEvent]).Chain'
        (fun r s => s.outputConf ≤ r.outputConf)) :=
  ⟨by
    intro o ho
    rw [List.mem_singleton] at ho
    subst ho
    constructor <;> norm_num [sampleObject],
  computeConfidenceBudget_nonincreasing [sampleObject] [occlusionEvent] (by
    intro o ho
    rw [List.mem_singleton] at ho
    subst ho
    constructor <;> norm_num [sampleObject])⟩

/-- C4: for every objects and events list, `computeConfidenceBudget` returns
exactly four rows in the fixed stage order, each row satisfies
`outputConf = inputConf - loss`, and each row's `outputConf` equals the next
row's `inputConf`. -/
theorem computeConfidenceBudget_chain (objects : List TrackedObject)
    (events : List TimelineEvent) :
    (computeConfidenceBudget objects events).length = 4 ∧
    (computeConfidenceBudget objects events).map ConfidenceBudgetRow.stage =
      ["Raw Detection", "Multi-Object Tracking", "Motion Estimation",
        "Dynamics Modeling"] ∧
    (∀ row ∈ computeConfidenceBudget objects events,
      row.outputConf = row.inputConf - row.loss) ∧
    (computeConfidenceBudget objects events).Chain'
      (fun r s => s.inputConf = r.outputConf) := by
  rw [computeConfidenceBudget]
  refine ⟨rfl, rfl, ?_, ?_⟩
  · intro row hrow
    simp only [List.mem_cons, List.mem_singleton, List.not_mem_nil, or_false] at hrow
    rcases hrow with rfl | rfl | rfl | rfl <;> rfl
  · simp only [List.chain'_cons, List.chain'_singleton, and_true]

/-! ## C9 — blind-spot presence and ordering -/

/-- C9: `detectBlindSpots` always returns at least one entry; its last entry
is the unconditional SPATIAL LOW finding; the emitted findings appear in
strictly increasing rank order (ANALYTICAL, then TEMPORAL, then SPATIAL);
and for a single object with `avgConfidence = 0.5` the first entry is the
HIGH-severity ANALYTICAL finding. -/
theorem detectBlindSpots_presence_order (objects : List TrackedObject)
    (events : List TimelineEvent) (obj : TrackedObject)
    (hobj : obj.avgConfidence = 0.5) :
    detectBlindSpots objects events ≠ [] ∧
    (detectBlindSpots objects events).getLast? = some spatialBlindSpot ∧
    ((detectBlindSpots objects events).map fun b => bsRank b.type).Sorted (· < ·) ∧
    ((detectBlindSpots [obj] events).head?.map fun b => (b.type, b.severity)) =
      some (BSType.ANALYTICAL, BSSeverity.HIGH) := by
  refine ⟨?_, ?_, ?_, ?_⟩
  · rw [detectBlindSpots]
    intro hcontra
    simp at hcontra
  · rw [detectBlindSpots]
    rw [List.getLast?_concat]
  · rw [detectBlindSpots]
    split <;> split <;>
      simp [bsRank, spatialBlindSpot, List.Sorted, List.pairwise_cons]
  · rw [detectBlindSpots]
    have hb : (decide (obj.avgConfidence < 0.6)) = true :=
      decide_eq_true (by rw [hobj]; norm_num)
    simp [List.filter, hb]

/-- C9 (witness): the theorem applied at empty object/event lists and at the
concrete object `lowConfObject` (confidence 0.5). -/
theorem detectBlindSpots_presence_order_witness :
    detectBlindSpots [] [] ≠ [] ∧
    ((detectBlindSpots [lowConfObject] []).head?.map fun b => (b.type, b.severity)) =
      some (BSType.ANALYTICAL, BSSeverity.HIGH) :=
  ⟨(detectBlindSpots_presence_order [] [] lowConfObject rfl).1,
    (detectBlindSpots_presence_order [] [] lowConfObject rfl).2.2.2⟩

/-- C4 (witness): the chain equalities applied at empty inputs. -/
theorem computeConfidenceBudget_chain_witness :
    (computeConfidenceBudget [] []).length = 4 ∧
    (computeConfidenceBudget [] []).map ConfidenceBudgetRow.stage =
      ["Raw Detection", "Multi-Object Tracking", "Motion Estimation",
        "Dynamics Modeling"] ∧
    (∀ row ∈ computeConfidenceBudget [] [],
      row.outputConf = row.inputConf - row.loss) ∧
    (computeConfidenceBudget [] []).Chain'
      (fun r s => s.inputConf = r.outputConf) :=
  computeConfidenceBudget_chain [] []

/-! ## Bridges between the checked and unchecked embeddings -/

theorem ite_some {α : Type} (c : Prop) [Decidable c] (x y : α) :
    (if c then some x else some y) = some (if c then x else y) := by
  split <;> rfl

theorem emitSampleChecked_eq (sorted : List (ℚ × ℚ)) (idx : Nat) (t : ℚ)
    (hd : sorted.Pairwise fun a b => a.1 ≠ b.1) :
    emitSampleChecked sorted idx t = some (emitSample sorted idx t) := by
  rw [emitSampleChecked, emitSample]
  cases h1 : sorted[idx]? with
  | none => rfl
  | some p1 =>
    cases h2 : sorted[idx + 1]? with
    | none => rfl
    | some p2 =>
      obtain ⟨hi1, he1⟩ := List.getElem?_eq_some.mp h1
      obtain ⟨hi2, he2⟩ := List.getElem?_eq_some.mp h2
      have hne : p1.1 ≠ p2.1 := by
        have := List.pairwise_iff_getElem.mp hd idx (idx + 1) hi1 hi2 (by omega)
        rwa [he1, he2] at this
      have hr : p2.1 - p1.1 ≠ 0 := sub_ne_zero.mpr (Ne.symm hne)
      simp [hr]

theorem interpGoChecked_map_some (sorted : List (ℚ × ℚ)) (step : ℚ) (n : Nat)
    (t : ℚ) (idx : Nat) (hd : sorted.Pairwise fun a b => a.1 ≠ b.1) :
    interpGoChecked sorted step n t idx = (interpGo sorted step n t idx).map some := by
  induction n generalizing t idx with
  | zero => simp [interpGoChecked, interpGo]
  | succ n ih =>
    rw [interpGoChecked, interpGo, List.map_cons, emitSampleChecked_eq _ _ _ hd, ih]

/-- Under pairwise-distinct timestamps the division-checked and total-division
models of `interpolateSeries` coincide: no sample is `NaN`. -/
theorem interpolateSeriesChecked_eq (sparse : List (ℚ × ℚ)) (duration step : ℚ)
    (hd : sparse.Pairwise fun a b => a.1 ≠ b.1) :
    interpolateSeriesChecked sparse duration step =
      (interpolateSeries sparse duration step).map some := by
  rw [interpolateSeriesChecked, interpolateSeries]
  by_cases hc : sparse.length < 2
  · rw [if_pos hc, if_pos hc]
    rfl
  · rw [if_neg hc, if_neg hc]
    exact interpGoChecked_map_some _ _ _ _ _
      (((List.mergeSort_perm sparse _).pairwise_iff fun hab => Ne.symm hab).mpr hd)

/-- C1 (amended, checked model): for positive step and a sparse list with
pairwise-distinct timestamps whose point values are all ≥ 0, every sample
emitted by `interpolate` is a well-defined numeric value ≥ 0. -/
theorem interpolateSeriesChecked_value_nonneg (sparse : List (ℚ × ℚ))
    (duration step : ℚ) (_hstep : 0 < step)
    (hd : sparse.Pairwise fun a b => a.1 ≠ b.1)
    (hv : ∀ p ∈ sparse, 0 ≤ p.2) :
    ∀ s ∈ interpolateSeriesChecked sparse duration step,
      ∃ v, s = some v ∧ 0 ≤ v.value := by
  rw [interpolateSeriesChecked_eq _ _ _ hd]
  intro s hs
  obtain ⟨v, hvmem, rfl⟩ := List.mem_map.mp hs
  exact ⟨v, rfl, interpolateSeries_value_nonneg sparse duration step hv v hvmem⟩

/-- C1 (witness): the amended theorem applied at the concrete input
`[[0, 3], [1, 4]]`, duration 1, step 1. -/
theorem interpolateSeriesChecked_value_nonneg_witness :
    ((0:ℚ) < 1 ∧ (∀ p ∈ [((0:ℚ), (3:ℚ)), (1, 4)], 0 ≤ p.2)) ∧
    ∀ s ∈ interpolateSeriesChecked [((0:ℚ), (3:ℚ)), (1, 4)] 1 1,
      ∃ v, s = some v ∧ 0 ≤ v.value :=
  ⟨⟨by norm_num, by norm_num⟩,
    interpolateSeriesChecked_value_nonneg _ 1 1 (by norm_num) (by norm_num)
      (by norm_num)⟩

theorem nanClamp_some (x : ℚ) :
    nanClamp (some x) = some (if x < 0 then 0 else x) := by
  rw [nanClamp, ite_some]

theorem nanTtc_some (c D : ℚ) :
    nanTtc (some c) (some D) = some (if c > 1 then D / c else 10) := by
  rw [nanTtc, Option.map_some', ite_some]

theorem ttcGoChecked_map_some : ∀ (l1 l2 : List DenseSample) (d : ℚ),
    ttcGoChecked (l1.map some) (l2.map some) (some d) =
      (ttcGo l1 l2 d).map fun c => ⟨some c.time, some c.distance, some c.ttc, c.risk⟩ := by
  intro l1
  induction l1 with
  | nil =>
    intro l2 d
    rfl
  | cons a l1 ih =>
    intro l2 d
    cases l2 with
    | nil => rfl
    | cons b l2 =>
      simp only [List.map_cons, ttcGoChecked, ttcGo, nanClosingSpeed, nanDec,
        nanClamp_some, nanTtc_some, nanLt, Option.map_some', Bool.decide_and]
      rw [ih]

/-- C10 (counterexample): with a duplicate-timestamp speed profile
(`[[0,0],[0,5]]`) the interpolated dense value is `NaN` (0/0), so the first
distance is `50 - NaN * 0.1 = NaN` and the `if (distance < 0)` clamp misses
it: the output distance at index 0 is undefined, not a value in [0, 50] —
refuting the claim for arbitrary real-valued speed profiles. -/
theorem computeDistanceAndTTCChecked_nan_distance :
    (computeDistanceAndTTCChecked nanObj ttcObjB 0).length = 1 ∧
    ((computeDistanceAndTTCChecked nanObj ttcObjB 0).getD 0 default).distance =
      none := by
  have hA : interpolateSeriesChecked (nanObj.speedProfile.getD []) 0 = [none] := by
    have hs : List.mergeSort [((0:ℚ), (0:ℚ)), (0, 5)] (fun a b => decide (a.1 ≤ b.1)) =
        [(0, 0), (0, 5)] := List.mergeSort_of_sorted (by simp)
    have hn : numSteps 0 0.1 = 1 := by
      rw [numSteps, if_pos (by norm_num)]
      norm_num
    show interpolateSeriesChecked [(0, 0), (0, 5)] 0 0.1 = [none]
    rw [interpolateSeriesChecked, if_neg (by simp), hs, hn]
    norm_num [interpGoChecked, advance, advanceAux, emitSampleChecked]
  have hB : interpolateSeriesChecked (ttcObjB.speedProfile.getD []) 0 =
      [some ⟨0, 0⟩] := by
    have hs : List.mergeSort [((0:ℚ), (0:ℚ)), (1, 0)] (fun a b => decide (a.1 ≤ b.1)) =
        [(0, 0), (1, 0)] := List.mergeSort_of_sorted (by simp)
    have hn : numSteps 0 0.1 = 1 := by
      rw [numSteps, if_pos (by norm_num)]
      norm_num
    show interpolateSeriesChecked [(0, 0), (1, 0)] 0 0.1 = [some ⟨0, 0⟩]
    rw [interpolateSeriesChecked, if_neg (by simp), hs, hn]
    norm_num [interpGoChecked, advance, advanceAux, emitSampleChecked, round1, max_def]
  rw [computeDistanceAndTTCChecked, hA, hB]
  exact ⟨rfl, rfl⟩

/-- C10 (amended): for every pair of tracked objects whose speed profiles
have pairwise-distinct timestamps and every duration, every distance emitted
by `computeDistanceAndTTC` is a well-defined value in [0, 50], and the
distance sequence is non-increasing in index. -/
theorem computeDistanceAndTTCChecked_distance_bounds (obj1 obj2 : TrackedObject)
    (duration : ℚ)
    (h1 : (obj1.speedProfile.getD []).Pairwise fun a b => a.1 ≠ b.1)
    (h2 : (obj2.speedProfile.getD []).Pairwise fun a b => a.1 ≠ b.1) :
    (∀ row ∈ computeDistanceAndTTCChecked obj1 obj2 duration,
      ∃ d, row.distance = some d ∧ 0 ≤ d ∧ d ≤ 50) ∧
    (computeDistanceAndTTCChecked obj1 obj2 duration).Pairwise
      fun a b => ∀ da db, a.distance = some da → b.distance = some db → db ≤ da := by
  rw [computeDistanceAndTTCChecked, interpolateSeriesChecked_eq _ _ _ h1,
    interpolateSeriesChecked_eq _ _ _ h2, ttcGoChecked_map_some]
  constructor
  · intro row hrow
    obtain ⟨c, hc, rfl⟩ := List.mem_map.mp hrow
    obtain ⟨hl, hu⟩ := ttcGo_dist_bounds _ _ 50 (by norm_num) c hc
    exact ⟨c.distance, rfl, hl, hu⟩
  · rw [List.pairwise_map]
    refine List.Pairwise.imp ?_ (ttcGo_dist_antitone _ _ 50 (by norm_num))
    intro a b hab da db ha hb
    obtain rfl := Option.some.inj ha
    obtain rfl := Option.some.inj hb
    exact hab

/-- C10 (witness): the amended bounds applied at the concrete object pair
(both profiles have distinct timestamps) and duration 0. -/
theorem computeDistanceAndTTCChecked_distance_bounds_witness :
    ((ttcObjA.speedProfile.getD []).Pairwise fun a b => a.1 ≠ b.1) ∧
    ((∀ row ∈ computeDistanceAndTTCChecked ttcObjA ttcObjB 0,
        ∃ d, row.distance = some d ∧ 0 ≤ d ∧ d ≤ 50) ∧
      (computeDistanceAndTTCChecked ttcObjA ttcObjB 0).Pairwise
        fun a b => ∀ da db, a.distance = some da → b.distance = some db → db ≤ da) :=
  ⟨by norm_num [ttcObjA],
    computeDistanceAndTTCChecked_distance_bounds ttcObjA ttcObjB 0
      (by norm_num [ttcObjA]) (by norm_num [ttcObjB])⟩
